import Mathlib

/-
Shallow embedding of the ebgoldstein/Forest-Fire repository:
src/FF.py (class ForestFireModel) and src/FFGamePlots.py (class
ForestFireGame plus the main game loop). Cell states keep the source
encoding 0 = empty, 1 = tree, 2 = fire. Each call of the form
random.random() < p is abstracted by a Boolean draw assigned per cell
and per purpose: grow models the p_tree test of an empty cell, ignite
models the p_fire test of a tree cell.
-/

/-- Grid of cell states, indexed by (row, column); 0 = empty, 1 = tree, 2 = fire. -/
abbrev Grid := Int → Int → Nat

/-- Extinguish overlay: per-cell integer decay counters (FFGamePlots.py line 32). -/
abbrev Overlay := Int → Int → Int

/-- Per-cell outcomes of the stochastic comparisons in step: grow is the result of
the p_tree test of an empty cell, ignite the result of the p_fire test of a tree. -/
structure Draws where
  grow : Int → Int → Bool
  ignite : Int → Int → Bool

/-- The four neighbor offsets hardcoded in FF.py line 32. -/
def vonNeumannNeighborhood : List (Int × Int) := [(-1, 0), (1, 0), (0, -1), (0, 1)]

/-- The eight neighbor offsets hardcoded in FFGamePlots.py lines 54-58. -/
def mooreNeighborhood : List (Int × Int) :=
  [(-1, -1), (-1, 0), (-1, 1), (0, -1), (0, 1), (1, -1), (1, 0), (1, 1)]

/-- Bounds test 0 <= x < grid_size and 0 <= y < grid_size. -/
def inBoundsB (n : Nat) (x y : Int) : Bool :=
  decide (0 ≤ x ∧ x < (n : Int) ∧ 0 ≤ y ∧ y < (n : Int))

/-- Some in-bounds neighbor of (x, y) holds fire in grid g: the inner
neighbor loop of step, which breaks at the first burning neighbor. -/
def anyFireNeighbor (nb : List (Int × Int)) (n : Nat) (g : Grid) (x y : Int) : Bool :=
  nb.any (fun d => inBoundsB n (x + d.1) (y + d.2) && (g (x + d.1) (y + d.2) == 2))

/-- Value held by the buffer cell (x, y) after the per-cell body of step ran on it;
where the source writes nothing the buffer keeps the copied old value g x y. -/
def cellNext (nb : List (Int × Int)) (n : Nat) (g : Grid) (dr : Draws) (x y : Int) : Nat :=
  if g x y = 0 then (if dr.grow x y then 1 else g x y)
  else if g x y = 1 then
    (if dr.ignite x y then 2 else if anyFireNeighbor nb n g x y then 2 else g x y)
  else if g x y = 2 then 0
  else g x y

/-- Functional update of one cell of a two-dimensional array. -/
def writeCell {α : Type} (g : Int → Int → α) (x y : Int) (v : α) : Int → Int → α :=
  fun a b => if a = x ∧ b = y then v else g a b

/-- The Int values of the loop range(n). -/
def intRange (n : Nat) : List Int := (List.range n).map (fun i : Nat => (i : Int))

/-- Row-major list of all cell coordinates: the nested loops
for x in range(grid_size), for y in range(grid_size). -/
def cellList (n : Nat) : List (Int × Int) := (intRange n).product (intRange n)

/-- The Int values of the loop range(x, x + 3). -/
def intRange3 (x : Int) : List Int := (List.range 3).map (fun i : Nat => x + (i : Int))

/-- Row-major list of the 3 x 3 player footprint cells: the loops
for i in range(x, x + 3), for j in range(y, y + 3) (FFGamePlots.py lines 98-99). -/
def footprintCells (x y : Int) : List (Int × Int) := (intRange3 x).product (intRange3 y)

/-- Membership test for the 3 x 3 footprint anchored at p. -/
def inFootprintB (p : Int × Int) (a b : Int) : Bool :=
  decide (p.1 ≤ a ∧ a ≤ p.1 + 2 ∧ p.2 ≤ b ∧ b ≤ p.2 + 2)

/-- State of class ForestFireModel (FF.py lines 12-17). -/
structure ForestFireModel where
  grid_size : Nat
  p_tree : Rat
  p_fire : Rat
  grid : Grid

namespace ForestFireModel

/-- Constructor of FF.py lines 13-17: stores the parameters and zeroes the grid.
The body performs no validation and cannot raise. Negative grid sizes are outside
this embedding (numpy itself rejects a negative dimension, before any model code). -/
def init (grid_size : Nat) (p_tree p_fire : Rat) : ForestFireModel :=
  { grid_size := grid_size, p_tree := p_tree, p_fire := p_fire, grid := fun _ _ => 0 }

/-- Body of the per-cell double loop of FF.py lines 25-39, acting on the
buffer new_grid; reads cell states only from the pre-tick grid g. The von
Neumann neighborhood of line 32 is hardcoded. -/
def processCell (n : Nat) (g : Grid) (dr : Draws) (buf : Grid) (c : Int × Int) : Grid :=
  if g c.1 c.2 = 0 then
    (if dr.grow c.1 c.2 then writeCell buf c.1 c.2 1 else buf)
  else if g c.1 c.2 = 1 then
    (if dr.ignite c.1 c.2 then writeCell buf c.1 c.2 2
     else if anyFireNeighbor vonNeumannNeighborhood n g c.1 c.2 then writeCell buf c.1 c.2 2
     else buf)
  else if g c.1 c.2 = 2 then writeCell buf c.1 c.2 0
  else buf

/-- step of FF.py lines 19-41: copy the grid into new_grid, run the per-cell
rule over all cells reading the old grid, then replace the grid. -/
def step (m : ForestFireModel) (dr : Draws) : ForestFireModel :=
  { m with
    grid := (cellList m.grid_size).foldl (processCell m.grid_size m.grid dr) m.grid }

end ForestFireModel

/-- Movement intents held at a frame: membership of the strings UP, DOWN,
LEFT, RIGHT in the direction set handed to move_player. -/
structure DirSet where
  up : Bool
  down : Bool
  left : Bool
  right : Bool

/-- State of class ForestFireGame (FFGamePlots.py lines 23-40). -/
structure ForestFireGame where
  grid_size : Nat
  p_tree : Rat
  p_fire : Rat
  grid : Grid
  player_pos : Int × Int
  extinguished : Nat
  burned : Nat
  extinguish_overlay : Overlay
  time_step : Nat
  burned_history : List Nat
  extinguished_history : List Nat
  trees_history : List Nat
  fire_percent_history : List Rat
  tree_percent_history : List Rat

namespace ForestFireGame

/-- Constructor of FFGamePlots.py lines 24-40: stores the parameters, zeroes the
grid and overlay, puts the player at the center, and starts every counter at
zero and every history empty. The body performs no validation and cannot raise. -/
def init (grid_size : Nat) (p_tree p_fire : Rat) : ForestFireGame :=
  { grid_size := grid_size
    p_tree := p_tree
    p_fire := p_fire
    grid := fun _ _ => 0
    player_pos := ((grid_size / 2 : Nat), (grid_size / 2 : Nat))
    extinguished := 0
    burned := 0
    extinguish_overlay := fun _ _ => 0
    time_step := 0
    burned_history := []
    extinguished_history := []
    trees_history := []
    fire_percent_history := []
    tree_percent_history := [] }

/-- Body of the per-cell double loop of FFGamePlots.py lines 47-66, acting on
the buffer new_grid and the burned counter; reads cell states only from the
pre-tick grid g. The Moore neighborhood of lines 54-58 is hardcoded. -/
def processCell (n : Nat) (g : Grid) (dr : Draws) (st : Grid × Nat) (c : Int × Int) :
    Grid × Nat :=
  if g c.1 c.2 = 0 then
    (if dr.grow c.1 c.2 then (writeCell st.1 c.1 c.2 1, st.2) else st)
  else if g c.1 c.2 = 1 then
    (if dr.ignite c.1 c.2 then (writeCell st.1 c.1 c.2 2, st.2)
     else if anyFireNeighbor mooreNeighborhood n g c.1 c.2 then (writeCell st.1 c.1 c.2 2, st.2)
     else st)
  else if g c.1 c.2 = 2 then (writeCell st.1 c.1 c.2 0, st.2 + 1)
  else st

/-- Number of cells of g holding state s, as np.sum(grid == s) computes it. -/
def countState (n : Nat) (g : Grid) (s : Nat) : Nat :=
  (cellList n).countP (fun c => g c.1 c.2 == s)

/-- step of FFGamePlots.py lines 42-82: run the per-cell rule into the buffer
and accumulate burned, swap the buffer in, decay the overlay, and append the
tick statistics. Percentages use exact rationals where the source uses floats. -/
def step (game : ForestFireGame) (dr : Draws) : ForestFireGame :=
  let res := (cellList game.grid_size).foldl
    (processCell game.grid_size game.grid dr) (game.grid, game.burned)
  let newOverlay : Overlay := fun a b =>
    if game.extinguish_overlay a b > 0 then game.extinguish_overlay a b - 1
    else game.extinguish_overlay a b
  let total : Rat := ((game.grid_size * game.grid_size : Nat) : Rat)
  { game with
    grid := res.1
    burned := res.2
    extinguish_overlay := newOverlay
    time_step := game.time_step + 1
    burned_history := game.burned_history ++ [res.2]
    extinguished_history := game.extinguished_history ++ [game.extinguished]
    trees_history := game.trees_history ++ [countState game.grid_size res.1 1]
    fire_percent_history := game.fire_percent_history ++
      [((countState game.grid_size res.1 2 : Rat) / total) * 100]
    tree_percent_history := game.tree_percent_history ++
      [((countState game.grid_size res.1 1 : Rat) / total) * 100] }

/-- The movement clamping of FFGamePlots.py lines 86-95: the four tests run in
sequence on the mutable local coordinates, each guarded by its bound. -/
def clampedPos (n : Nat) (p : Int × Int) (ds : DirSet) : Int × Int :=
  let x1 := if ds.up = true ∧ p.1 > 0 then p.1 - 1 else p.1
  let x2 := if ds.down = true ∧ x1 < (n : Int) - 3 then x1 + 1 else x1
  let y1 := if ds.left = true ∧ p.2 > 0 then p.2 - 1 else p.2
  let y2 := if ds.right = true ∧ y1 < (n : Int) - 3 then y1 + 1 else y1
  (x2, y2)

/-- Body of the extinguish loop of FFGamePlots.py lines 98-104, acting in place
on (grid, extinguished, extinguish_overlay) at one footprint cell. -/
def extinguishAt (n : Nat) (st : Grid × Nat × Overlay) (c : Int × Int) :
    Grid × Nat × Overlay :=
  if inBoundsB n c.1 c.2 = true then
    (if st.1 c.1 c.2 = 2 then
      (writeCell st.1 c.1 c.2 0, st.2.1 + 1, writeCell st.2.2 c.1 c.2 2)
     else st)
  else st

/-- move_player of FFGamePlots.py lines 84-104: clamp-move the anchor, then
extinguish every burning cell of the new 3 x 3 footprint. -/
def move_player (game : ForestFireGame) (ds : DirSet) : ForestFireGame :=
  let p := clampedPos game.grid_size game.player_pos ds
  let res := (footprintCells p.1 p.2).foldl (extinguishAt game.grid_size)
    (game.grid, game.extinguished, game.extinguish_overlay)
  { game with
    player_pos := p
    grid := res.1
    extinguished := res.2.1
    extinguish_overlay := res.2.2 }

end ForestFireGame

/-- Driver state of main (FFGamePlots.py lines 159-162): the game plus the
frame counter simulation_counter; simulation_step_interval is the constant 5. -/
structure FrameState where
  game : ForestFireGame
  simulation_counter : Nat

/-- One iteration of the main loop restricted to the simulation core
(FFGamePlots.py lines 191-199): move the player when any direction key is held,
run step only when simulation_counter is a multiple of 5, bump the counter. -/
def mainLoopFrame (dr : Draws) (ds : DirSet) (fs : FrameState) : FrameState :=
  let g1 := if ds.up || ds.down || ds.left || ds.right then fs.game.move_player ds else fs.game
  let g2 := if fs.simulation_counter % 5 = 0 then g1.step dr else g1
  { game := g2, simulation_counter := fs.simulation_counter + 1 }


/-- Boolean pointwise equality of two grids over the cells of an n x n board. -/
def gridEqOn (n : Nat) (g1 g2 : Grid) : Bool :=
  (cellList n).all (fun c => g1 c.1 c.2 == g2 c.1 c.2)

/-- Number of board cells that hold fire in s and no longer hold fire in t. -/
def leavingFire (s t : ForestFireGame) : Nat :=
  (cellList s.grid_size).countP
    (fun c => (s.grid c.1 c.2 == 2) && !(t.grid c.1 c.2 == 2))

/-- Draw outcomes where every stochastic comparison fails (no growth, no ignition). -/
def drawsNone : Draws := { grow := fun _ _ => false, ignite := fun _ _ => false }

/-- The empty direction set: no key held. -/
def noDirs : DirSet := { up := false, down := false, left := false, right := false }

/-- Direction set holding only DOWN. -/
def dirDown : DirSet := { up := false, down := true, left := false, right := false }

/-- Concrete 2 x 2 board: fire at (0, 0), a tree diagonally at (1, 1). -/
def gridDiag : Grid := fun a b =>
  if a = 0 ∧ b = 0 then 2 else if a = 1 ∧ b = 1 then 1 else 0

/-- ForestFireModel whose state carries gridDiag on a 2 x 2 board. -/
def mDiag : ForestFireModel :=
  { grid_size := 2, p_tree := 0, p_fire := 0, grid := gridDiag }

/-- ForestFireGame carrying the same parameters and board as mDiag. -/
def gDiag : ForestFireGame := { ForestFireGame.init 2 0 0 with grid := gridDiag }

/-- The scenario game of the spec: 5 x 5 board, player anchored at (0, 0),
a single fire at (1, 1). -/
def gameScenario : ForestFireGame :=
  { ForestFireGame.init 5 0 0 with
    player_pos := (0, 0)
    grid := fun a b => if a = 1 ∧ b = 1 then 2 else 0 }

/-- Overlay with one positive decay counter, at (0, 0). -/
def overlayOne : Overlay := fun a b => if a = 0 ∧ b = 0 then 2 else 0

/-- Game state on a 1 x 1 board whose overlay carries a positive counter. -/
def gameOverlay : ForestFireGame :=
  { ForestFireGame.init 1 0 0 with extinguish_overlay := overlayOne }

lemma mem_intRange {n : Nat} {x : Int} : x ∈ intRange n ↔ 0 ≤ x ∧ x < (n : Int) := by
  simp only [intRange, List.mem_map, List.mem_range]
  constructor
  · rintro ⟨i, hi, rfl⟩
    omega
  · rintro ⟨h0, hn⟩
    exact ⟨x.toNat, by omega, by omega⟩

lemma intRange_nodup (n : Nat) : (intRange n).Nodup := by
  refine List.Nodup.map ?_ (List.nodup_range n)
  intro a b h
  simp only at h
  omega

lemma mem_intRange3 {x a : Int} : a ∈ intRange3 x ↔ x ≤ a ∧ a ≤ x + 2 := by
  simp only [intRange3, List.mem_map, List.mem_range]
  constructor
  · rintro ⟨i, hi, rfl⟩
    omega
  · rintro ⟨h0, h2⟩
    exact ⟨(a - x).toNat, by omega, by omega⟩

lemma intRange3_nodup (x : Int) : (intRange3 x).Nodup := by
  refine List.Nodup.map ?_ (List.nodup_range 3)
  intro a b h
  simp only at h
  omega

lemma product_eq_sprod {α β : Type} (l₁ : List α) (l₂ : List β) :
    l₁.product l₂ = l₁ ×ˢ l₂ := rfl

lemma mem_cellList {n : Nat} {c : Int × Int} :
    c ∈ cellList n ↔ inBoundsB n c.1 c.2 = true := by
  obtain ⟨a, b⟩ := c
  simp only [cellList, product_eq_sprod, List.mem_product, mem_intRange, inBoundsB,
    decide_eq_true_eq]
  tauto

lemma cellList_nodup (n : Nat) : (cellList n).Nodup := by
  rw [cellList, product_eq_sprod]
  exact (intRange_nodup n).product (intRange_nodup n)

lemma mem_footprintCells {x y : Int} {c : Int × Int} :
    c ∈ footprintCells x y ↔ inFootprintB (x, y) c.1 c.2 = true := by
  obtain ⟨a, b⟩ := c
  simp only [footprintCells, product_eq_sprod, List.mem_product, mem_intRange3, inFootprintB,
    decide_eq_true_eq]
  tauto

lemma footprintCells_nodup (x y : Int) : (footprintCells x y).Nodup := by
  rw [footprintCells, product_eq_sprod]
  exact (intRange3_nodup x).product (intRange3_nodup y)

lemma writeCell_self {α : Type} (g : Int → Int → α) (x y : Int) (v : α) :
    writeCell g x y v x y = v := by
  simp [writeCell]

lemma writeCell_other {α : Type} (g : Int → Int → α) {x y a b : Int} (v : α)
    (h : ¬(a = x ∧ b = y)) : writeCell g x y v a b = g a b := by
  simp only [writeCell]
  exact if_neg h

/-- Counting elements of one nodup list satisfying p equals counting elements of
another nodup list satisfying q, when membership-with-predicate agrees. -/
lemma countP_eq_countP_of_nodup {α : Type} [DecidableEq α] {l₁ l₂ : List α}
    (h₁ : l₁.Nodup) (h₂ : l₂.Nodup) (p q : α → Bool)
    (h : ∀ c, (c ∈ l₁ ∧ p c = true) ↔ (c ∈ l₂ ∧ q c = true)) :
    l₁.countP p = l₂.countP q := by
  rw [List.countP_eq_length_filter, List.countP_eq_length_filter]
  refine List.Perm.length_eq ?_
  rw [List.perm_ext_iff_of_nodup (h₁.filter p) (h₂.filter q)]
  intro a
  simp only [List.mem_filter]
  exact h a

namespace ForestFireModel

lemma processCell_other (n : Nat) (g : Grid) (dr : Draws) (buf : Grid) (c : Int × Int)
    {a b : Int} (h : ¬(a = c.1 ∧ b = c.2)) :
    processCell n g dr buf c a b = buf a b := by
  unfold processCell
  split_ifs <;> first
    | rfl
    | exact writeCell_other buf _ h

lemma processCell_self (n : Nat) (g : Grid) (dr : Draws) (buf : Grid) (c : Int × Int)
    (h : buf c.1 c.2 = g c.1 c.2) :
    processCell n g dr buf c c.1 c.2 = cellNext vonNeumannNeighborhood n g dr c.1 c.2 := by
  unfold processCell cellNext
  split_ifs <;> first
    | exact writeCell_self buf c.1 c.2 _
    | exact h

lemma foldl_processCell (n : Nat) (g : Grid) (dr : Draws) :
    ∀ (l : List (Int × Int)), l.Nodup → ∀ (buf : Grid),
      (∀ c ∈ l, buf c.1 c.2 = g c.1 c.2) → ∀ a b : Int,
      l.foldl (processCell n g dr) buf a b
        = if (a, b) ∈ l then cellNext vonNeumannNeighborhood n g dr a b else buf a b := by
  intro l
  induction l with
  | nil => intro _ buf _ a b; simp
  | cons c t ih =>
    intro hnd buf hbuf a b
    have hct : c ∉ t := (List.nodup_cons.mp hnd).1
    have htnd : t.Nodup := (List.nodup_cons.mp hnd).2
    have hbuf' : ∀ c' ∈ t, processCell n g dr buf c c'.1 c'.2 = g c'.1 c'.2 := by
      intro c' hc'
      have hne : ¬(c'.1 = c.1 ∧ c'.2 = c.2) := by
        intro hpair
        apply hct
        have : c' = c := Prod.ext hpair.1 hpair.2
        rw [this] at hc'
        exact hc'
      rw [processCell_other n g dr buf c hne]
      exact hbuf c' (List.mem_cons_of_mem c hc')
    rw [List.foldl_cons, ih htnd (processCell n g dr buf c) hbuf' a b]
    by_cases hmem : (a, b) ∈ t
    · rw [if_pos hmem, if_pos (List.mem_cons_of_mem c hmem)]
    · rw [if_neg hmem]
      by_cases heq : (a, b) = c
      · have h1 : a = c.1 := by rw [← heq]
        have h2 : b = c.2 := by rw [← heq]
        subst h1; subst h2
        rw [processCell_self n g dr buf c (hbuf c (List.mem_cons_self c t))]
        rw [if_pos (show ((c.1 : Int), (c.2 : Int)) ∈ c :: t from List.mem_cons_self c t)]
      · have hne : ¬(a = c.1 ∧ b = c.2) := by
          intro hpair
          exact heq (Prod.ext hpair.1 hpair.2)
        rw [processCell_other n g dr buf c hne]
        rw [if_neg (by simp [List.mem_cons, heq, hmem])]

/-- Pointwise value of the grid after step of FF.py: inside the grid every
cell follows the transition rule with the von Neumann neighborhood, read
against the pre-tick snapshot. -/
lemma model_step_grid (m : ForestFireModel) (dr : Draws) (x y : Int) :
    (m.step dr).grid x y
      = if inBoundsB m.grid_size x y = true
        then cellNext vonNeumannNeighborhood m.grid_size m.grid dr x y
        else m.grid x y := by
  show (cellList m.grid_size).foldl (processCell m.grid_size m.grid dr) m.grid x y = _
  rw [foldl_processCell m.grid_size m.grid dr (cellList m.grid_size)
    (cellList_nodup m.grid_size) m.grid (fun _ _ => rfl) x y]
  by_cases h : (x, y) ∈ cellList m.grid_size
  · rw [if_pos h, if_pos (mem_cellList.mp h)]
  · rw [if_neg h, if_neg (fun hb => h (mem_cellList.mpr hb))]

end ForestFireModel

namespace ForestFireGame

lemma processCell_fst_other (n : Nat) (g : Grid) (dr : Draws) (st : Grid × Nat)
    (c : Int × Int) {a b : Int} (h : ¬(a = c.1 ∧ b = c.2)) :
    (processCell n g dr st c).1 a b = st.1 a b := by
  unfold processCell
  split_ifs <;> first
    | rfl
    | exact writeCell_other st.1 _ h

lemma processCell_fst_self (n : Nat) (g : Grid) (dr : Draws) (st : Grid × Nat)
    (c : Int × Int) (h : st.1 c.1 c.2 = g c.1 c.2) :
    (processCell n g dr st c).1 c.1 c.2 = cellNext mooreNeighborhood n g dr c.1 c.2 := by
  unfold processCell cellNext
  split_ifs <;> first
    | exact writeCell_self st.1 c.1 c.2 _
    | exact h

lemma processCell_snd (n : Nat) (g : Grid) (dr : Draws) (st : Grid × Nat) (c : Int × Int) :
    (processCell n g dr st c).2 = st.2 + (if g c.1 c.2 = 2 then 1 else 0) := by
  unfold processCell
  split_ifs <;> omega

lemma foldl_processCell_fst (n : Nat) (g : Grid) (dr : Draws) :
    ∀ (l : List (Int × Int)), l.Nodup → ∀ (st : Grid × Nat),
      (∀ c ∈ l, st.1 c.1 c.2 = g c.1 c.2) → ∀ a b : Int,
      (l.foldl (processCell n g dr) st).1 a b
        = if (a, b) ∈ l then cellNext mooreNeighborhood n g dr a b else st.1 a b := by
  intro l
  induction l with
  | nil => intro _ st _ a b; simp
  | cons c t ih =>
    intro hnd st hst a b
    have hct : c ∉ t := (List.nodup_cons.mp hnd).1
    have htnd : t.Nodup := (List.nodup_cons.mp hnd).2
    have hst' : ∀ c' ∈ t, (processCell n g dr st c).1 c'.1 c'.2 = g c'.1 c'.2 := by
      intro c' hc'
      have hne : ¬(c'.1 = c.1 ∧ c'.2 = c.2) := by
        intro hpair
        apply hct
        have : c' = c := Prod.ext hpair.1 hpair.2
        rw [this] at hc'
        exact hc'
      rw [processCell_fst_other n g dr st c hne]
      exact hst c' (List.mem_cons_of_mem c hc')
    rw [List.foldl_cons, ih htnd (processCell n g dr st c) hst' a b]
    by_cases hmem : (a, b) ∈ t
    · rw [if_pos hmem, if_pos (List.mem_cons_of_mem c hmem)]
    · rw [if_neg hmem]
      by_cases heq : (a, b) = c
      · have h1 : a = c.1 := by rw [← heq]
        have h2 : b = c.2 := by rw [← heq]
        subst h1; subst h2
        rw [processCell_fst_self n g dr st c (hst c (List.mem_cons_self c t))]
        rw [if_pos (show ((c.1 : Int), (c.2 : Int)) ∈ c :: t from List.mem_cons_self c t)]
      · have hne : ¬(a = c.1 ∧ b = c.2) := by
          intro hpair
          exact heq (Prod.ext hpair.1 hpair.2)
        rw [processCell_fst_other n g dr st c hne]
        rw [if_neg (by simp [List.mem_cons, heq, hmem])]

lemma foldl_processCell_snd (n : Nat) (g : Grid) (dr : Draws) :
    ∀ (l : List (Int × Int)) (st : Grid × Nat),
      (l.foldl (processCell n g dr) st).2
        = st.2 + l.countP (fun c => g c.1 c.2 == 2) := by
  intro l
  induction l with
  | nil => intro st; simp
  | cons c t ih =>
    intro st
    rw [List.foldl_cons, ih (processCell n g dr st c), processCell_snd,
      List.countP_cons]
    by_cases h : g c.1 c.2 = 2
    · simp only [h, if_pos rfl, beq_self_eq_true, if_true]
      omega
    · simp only [if_neg h, beq_iff_eq, h, if_false]
      omega

/-- Pointwise value of the grid after step of FFGamePlots.py: inside the grid
every cell follows the transition rule with the Moore neighborhood, read
against the pre-tick snapshot. -/
lemma game_step_grid (game : ForestFireGame) (dr : Draws) (x y : Int) :
    (game.step dr).grid x y
      = if inBoundsB game.grid_size x y = true
        then cellNext mooreNeighborhood game.grid_size game.grid dr x y
        else game.grid x y := by
  show ((cellList game.grid_size).foldl
    (processCell game.grid_size game.grid dr) (game.grid, game.burned)).1 x y = _
  rw [foldl_processCell_fst game.grid_size game.grid dr (cellList game.grid_size)
    (cellList_nodup game.grid_size) (game.grid, game.burned) (fun _ _ => rfl) x y]
  by_cases h : (x, y) ∈ cellList game.grid_size
  · rw [if_pos h, if_pos (mem_cellList.mp h)]
  · rw [if_neg h, if_neg (fun hb => h (mem_cellList.mpr hb))]

/-- After step the burned counter grew by the number of pre-tick fire cells. -/
lemma step_burned (game : ForestFireGame) (dr : Draws) :
    (game.step dr).burned = game.burned + countState game.grid_size game.grid 2 := by
  show ((cellList game.grid_size).foldl
    (processCell game.grid_size game.grid dr) (game.grid, game.burned)).2 = _
  rw [foldl_processCell_snd]
  rfl

lemma step_extinguished (game : ForestFireGame) (dr : Draws) :
    (game.step dr).extinguished = game.extinguished := rfl

lemma step_grid_size (game : ForestFireGame) (dr : Draws) :
    (game.step dr).grid_size = game.grid_size := rfl

lemma step_overlay (game : ForestFireGame) (dr : Draws) (a b : Int) :
    (game.step dr).extinguish_overlay a b
      = if game.extinguish_overlay a b > 0 then game.extinguish_overlay a b - 1
        else game.extinguish_overlay a b := rfl

end ForestFireGame

namespace ForestFireGame

lemma extinguishAt_fst_other (n : Nat) (st : Grid × Nat × Overlay) (c : Int × Int)
    {a b : Int} (h : ¬(a = c.1 ∧ b = c.2)) :
    (extinguishAt n st c).1 a b = st.1 a b := by
  unfold extinguishAt
  split_ifs <;> first
    | rfl
    | exact writeCell_other st.1 _ h

lemma extinguishAt_fst_self (n : Nat) (st : Grid × Nat × Overlay) (c : Int × Int) :
    (extinguishAt n st c).1 c.1 c.2
      = if inBoundsB n c.1 c.2 = true ∧ st.1 c.1 c.2 = 2 then 0 else st.1 c.1 c.2 := by
  unfold extinguishAt
  split_ifs <;> first
    | exact writeCell_self st.1 c.1 c.2 _
    | rfl
    | tauto

lemma extinguishAt_overlay_other (n : Nat) (st : Grid × Nat × Overlay) (c : Int × Int)
    {a b : Int} (h : ¬(a = c.1 ∧ b = c.2)) :
    (extinguishAt n st c).2.2 a b = st.2.2 a b := by
  unfold extinguishAt
  split_ifs <;> first
    | rfl
    | exact writeCell_other st.2.2 _ h

lemma extinguishAt_overlay_self (n : Nat) (st : Grid × Nat × Overlay) (c : Int × Int) :
    (extinguishAt n st c).2.2 c.1 c.2
      = if inBoundsB n c.1 c.2 = true ∧ st.1 c.1 c.2 = 2 then 2 else st.2.2 c.1 c.2 := by
  unfold extinguishAt
  split_ifs <;> first
    | exact writeCell_self st.2.2 c.1 c.2 _
    | rfl
    | tauto

lemma extinguishAt_count (n : Nat) (st : Grid × Nat × Overlay) (c : Int × Int) :
    (extinguishAt n st c).2.1
      = st.2.1 + (if inBoundsB n c.1 c.2 = true ∧ st.1 c.1 c.2 = 2 then 1 else 0) := by
  unfold extinguishAt
  split_ifs <;> first
    | rfl
    | omega
    | tauto

lemma foldl_extinguishAt (n : Nat) :
    ∀ (l : List (Int × Int)), l.Nodup → ∀ (st : Grid × Nat × Overlay),
      (∀ a b : Int,
        (l.foldl (extinguishAt n) st).1 a b
          = if (a, b) ∈ l ∧ inBoundsB n a b = true ∧ st.1 a b = 2 then 0 else st.1 a b)
      ∧ (∀ a b : Int,
        (l.foldl (extinguishAt n) st).2.2 a b
          = if (a, b) ∈ l ∧ inBoundsB n a b = true ∧ st.1 a b = 2 then 2 else st.2.2 a b)
      ∧ (l.foldl (extinguishAt n) st).2.1
          = st.2.1 + l.countP (fun c => inBoundsB n c.1 c.2 && (st.1 c.1 c.2 == 2)) := by
  intro l
  induction l with
  | nil => intro _ st; refine ⟨fun a b => by simp, fun a b => by simp, by simp⟩
  | cons c t ih =>
    intro hnd st
    have hct : c ∉ t := (List.nodup_cons.mp hnd).1
    have htnd : t.Nodup := (List.nodup_cons.mp hnd).2
    obtain ⟨ihg, iho, ihc⟩ := ih htnd (extinguishAt n st c)
    have hother : ∀ a b : Int, ¬(a = c.1 ∧ b = c.2) →
        (extinguishAt n st c).1 a b = st.1 a b := fun a b h =>
      extinguishAt_fst_other n st c h
    have hmemne : ∀ c' : Int × Int, c' ∈ t → ¬(c'.1 = c.1 ∧ c'.2 = c.2) := by
      intro c' hc' hpair
      apply hct
      have : c' = c := Prod.ext hpair.1 hpair.2
      rw [this] at hc'
      exact hc'
    refine ⟨?_, ?_, ?_⟩
    · intro a b
      rw [List.foldl_cons, ihg a b]
      by_cases heq : (a, b) = c
      · have h1 : a = c.1 := by rw [← heq]
        have h2 : b = c.2 := by rw [← heq]
        subst h1; subst h2
        have hnt : ((c.1 : Int), (c.2 : Int)) ∉ t := by
          intro hmem
          exact hct hmem
        rw [if_neg (by intro hcon; exact hnt hcon.1)]
        rw [extinguishAt_fst_self n st c]
        by_cases hcnd : inBoundsB n c.1 c.2 = true ∧ st.1 c.1 c.2 = 2
        · rw [if_pos hcnd,
            if_pos ⟨show ((c.1 : Int), (c.2 : Int)) ∈ c :: t from List.mem_cons_self c t,
              hcnd.1, hcnd.2⟩]
        · rw [if_neg hcnd, if_neg (fun hcon => hcnd ⟨hcon.2.1, hcon.2.2⟩)]
      · have hne : ¬(a = c.1 ∧ b = c.2) := fun hpair => heq (Prod.ext hpair.1 hpair.2)
        rw [hother a b hne]
        by_cases hmem : (a, b) ∈ t
        · by_cases hcnd : inBoundsB n a b = true ∧ st.1 a b = 2
          · rw [if_pos ⟨hmem, hcnd.1, hcnd.2⟩,
              if_pos ⟨List.mem_cons_of_mem c hmem, hcnd.1, hcnd.2⟩]
          · rw [if_neg (fun hcon => hcnd ⟨hcon.2.1, hcon.2.2⟩),
              if_neg (fun hcon => hcnd ⟨hcon.2.1, hcon.2.2⟩)]
        · rw [if_neg (fun hcon => hmem hcon.1),
            if_neg (fun hcon => by
              rcases List.mem_cons.mp hcon.1 with h | h
              · exact heq h
              · exact hmem h)]
    · intro a b
      rw [List.foldl_cons, iho a b]
      by_cases heq : (a, b) = c
      · have h1 : a = c.1 := by rw [← heq]
        have h2 : b = c.2 := by rw [← heq]
        subst h1; subst h2
        have hnt : ((c.1 : Int), (c.2 : Int)) ∉ t := by
          intro hmem
          exact hct hmem
        rw [if_neg (by intro hcon; exact hnt hcon.1)]
        rw [extinguishAt_overlay_self n st c]
        by_cases hcnd : inBoundsB n c.1 c.2 = true ∧ st.1 c.1 c.2 = 2
        · rw [if_pos hcnd,
            if_pos ⟨show ((c.1 : Int), (c.2 : Int)) ∈ c :: t from List.mem_cons_self c t,
              hcnd.1, hcnd.2⟩]
        · rw [if_neg hcnd, if_neg (fun hcon => hcnd ⟨hcon.2.1, hcon.2.2⟩)]
      · have hne : ¬(a = c.1 ∧ b = c.2) := fun hpair => heq (Prod.ext hpair.1 hpair.2)
        rw [hother a b hne, extinguishAt_overlay_other n st c hne]
        by_cases hmem : (a, b) ∈ t
        · by_cases hcnd : inBoundsB n a b = true ∧ st.1 a b = 2
          · rw [if_pos ⟨hmem, hcnd.1, hcnd.2⟩,
              if_pos ⟨List.mem_cons_of_mem c hmem, hcnd.1, hcnd.2⟩]
          · rw [if_neg (fun hcon => hcnd ⟨hcon.2.1, hcon.2.2⟩),
              if_neg (fun hcon => hcnd ⟨hcon.2.1, hcon.2.2⟩)]
        · rw [if_neg (fun hcon => hmem hcon.1),
            if_neg (fun hcon => by
              rcases List.mem_cons.mp hcon.1 with h | h
              · exact heq h
              · exact hmem h)]
    · rw [List.foldl_cons, ihc, extinguishAt_count n st c, List.countP_cons]
      have hcong : t.countP
            (fun c' => inBoundsB n c'.1 c'.2 && ((extinguishAt n st c).1 c'.1 c'.2 == 2))
          = t.countP (fun c' => inBoundsB n c'.1 c'.2 && (st.1 c'.1 c'.2 == 2)) := by
        refine List.countP_congr ?_
        intro c' hc'
        rw [hother c'.1 c'.2 (hmemne c' hc')]
      rw [hcong]
      by_cases hcnd : inBoundsB n c.1 c.2 = true ∧ st.1 c.1 c.2 = 2
      · rw [if_pos hcnd]
        have hb : (inBoundsB n c.1 c.2 && (st.1 c.1 c.2 == 2)) = true := by
          simp only [Bool.and_eq_true, beq_iff_eq]
          exact ⟨hcnd.1, hcnd.2⟩
        rw [if_pos hb]
        omega
      · rw [if_neg hcnd]
        have hb : ¬((inBoundsB n c.1 c.2 && (st.1 c.1 c.2 == 2)) = true) := by
          intro hcon
          simp only [Bool.and_eq_true, beq_iff_eq] at hcon
          exact hcnd hcon
        rw [if_neg hb]
        omega

end ForestFireGame

namespace ForestFireGame

lemma move_player_pos (game : ForestFireGame) (ds : DirSet) :
    (game.move_player ds).player_pos = clampedPos game.grid_size game.player_pos ds := rfl

lemma move_player_burned (game : ForestFireGame) (ds : DirSet) :
    (game.move_player ds).burned = game.burned := rfl

lemma move_player_grid_size (game : ForestFireGame) (ds : DirSet) :
    (game.move_player ds).grid_size = game.grid_size := rfl

/-- Pointwise value of the grid after move_player: burning cells of the new
footprint become empty, everything else is untouched. -/
lemma move_player_grid (game : ForestFireGame) (ds : DirSet) (a b : Int) :
    (game.move_player ds).grid a b
      = if (a, b) ∈ footprintCells (clampedPos game.grid_size game.player_pos ds).1
            (clampedPos game.grid_size game.player_pos ds).2
          ∧ inBoundsB game.grid_size a b = true ∧ game.grid a b = 2
        then 0 else game.grid a b := by
  have h := (foldl_extinguishAt game.grid_size
    (footprintCells (clampedPos game.grid_size game.player_pos ds).1
      (clampedPos game.grid_size game.player_pos ds).2)
    (footprintCells_nodup _ _)
    (game.grid, game.extinguished, game.extinguish_overlay)).1 a b
  exact h

/-- Pointwise value of the overlay after move_player: extinguished cells get
decay value 2, everything else is untouched. -/
lemma move_player_overlay (game : ForestFireGame) (ds : DirSet) (a b : Int) :
    (game.move_player ds).extinguish_overlay a b
      = if (a, b) ∈ footprintCells (clampedPos game.grid_size game.player_pos ds).1
            (clampedPos game.grid_size game.player_pos ds).2
          ∧ inBoundsB game.grid_size a b = true ∧ game.grid a b = 2
        then 2 else game.extinguish_overlay a b := by
  have h := ((foldl_extinguishAt game.grid_size
    (footprintCells (clampedPos game.grid_size game.player_pos ds).1
      (clampedPos game.grid_size game.player_pos ds).2)
    (footprintCells_nodup _ _)
    (game.grid, game.extinguished, game.extinguish_overlay)).2).1 a b
  exact h

/-- After move_player the extinguished counter grew by the number of burning
in-bounds cells of the new footprint. -/
lemma move_player_extinguished (game : ForestFireGame) (ds : DirSet) :
    (game.move_player ds).extinguished
      = game.extinguished
        + (footprintCells (clampedPos game.grid_size game.player_pos ds).1
            (clampedPos game.grid_size game.player_pos ds).2).countP
            (fun c => inBoundsB game.grid_size c.1 c.2 && (game.grid c.1 c.2 == 2)) := by
  have h := ((foldl_extinguishAt game.grid_size
    (footprintCells (clampedPos game.grid_size game.player_pos ds).1
      (clampedPos game.grid_size game.player_pos ds).2)
    (footprintCells_nodup _ _)
    (game.grid, game.extinguished, game.extinguish_overlay)).2).2
  exact h

end ForestFireGame

lemma clampedPos_preserves (n : Nat) (p : Int × Int) (ds : DirSet)
    (hx : 0 ≤ p.1 ∧ p.1 ≤ (n : Int) - 3) (hy : 0 ≤ p.2 ∧ p.2 ≤ (n : Int) - 3) :
    (0 ≤ (ForestFireGame.clampedPos n p ds).1
      ∧ (ForestFireGame.clampedPos n p ds).1 ≤ (n : Int) - 3)
    ∧ (0 ≤ (ForestFireGame.clampedPos n p ds).2
      ∧ (ForestFireGame.clampedPos n p ds).2 ≤ (n : Int) - 3) := by
  simp only [ForestFireGame.clampedPos]
  split_ifs <;> refine ⟨⟨?_, ?_⟩, ?_, ?_⟩ <;> omega

lemma foldl_move_player_grid_size (moves : List DirSet) :
    ∀ game : ForestFireGame,
      (moves.foldl ForestFireGame.move_player game).grid_size = game.grid_size := by
  induction moves with
  | nil => intro game; rfl
  | cons ds t ih =>
    intro game
    rw [List.foldl_cons, ih (game.move_player ds)]
    rfl

lemma foldl_move_player_pos (moves : List DirSet) :
    ∀ game : ForestFireGame,
      (0 ≤ game.player_pos.1 ∧ game.player_pos.1 ≤ (game.grid_size : Int) - 3)
      → (0 ≤ game.player_pos.2 ∧ game.player_pos.2 ≤ (game.grid_size : Int) - 3)
      → (0 ≤ (moves.foldl ForestFireGame.move_player game).player_pos.1
          ∧ (moves.foldl ForestFireGame.move_player game).player_pos.1
              ≤ (game.grid_size : Int) - 3)
        ∧ (0 ≤ (moves.foldl ForestFireGame.move_player game).player_pos.2
          ∧ (moves.foldl ForestFireGame.move_player game).player_pos.2
              ≤ (game.grid_size : Int) - 3) := by
  induction moves with
  | nil => intro game hx hy; exact ⟨hx, hy⟩
  | cons ds t ih =>
    intro game hx hy
    have hstep := clampedPos_preserves game.grid_size game.player_pos ds hx hy
    have hgs : (game.move_player ds).grid_size = game.grid_size :=
      ForestFireGame.move_player_grid_size game ds
    have hpos : (game.move_player ds).player_pos
        = ForestFireGame.clampedPos game.grid_size game.player_pos ds :=
      ForestFireGame.move_player_pos game ds
    rw [List.foldl_cons]
    have := ih (game.move_player ds)
      (by rw [hpos, hgs]; exact hstep.1) (by rw [hpos, hgs]; exact hstep.2)
    rw [hgs] at this
    exact this

/-- C1: a cell that is TREE at the start of a tick becomes FIRE when it wins
the spontaneous-ignition draw; otherwise it becomes FIRE exactly when some
in-bounds neighbor under the neighborhood of its engine (von Neumann for
ForestFireModel, Moore for ForestFireGame) was FIRE in the pre-tick snapshot;
otherwise it stays TREE. -/
theorem claim1_tree_transition (m : ForestFireModel) (game : ForestFireGame)
    (dr : Draws) (x y : Int)
    (hmB : inBoundsB m.grid_size x y = true) (hmT : m.grid x y = 1)
    (hgB : inBoundsB game.grid_size x y = true) (hgT : game.grid x y = 1) :
    (m.step dr).grid x y
      = (if dr.ignite x y = true then 2
         else if anyFireNeighbor vonNeumannNeighborhood m.grid_size m.grid x y = true
         then 2 else 1)
    ∧ (game.step dr).grid x y
      = (if dr.ignite x y = true then 2
         else if anyFireNeighbor mooreNeighborhood game.grid_size game.grid x y = true
         then 2 else 1) := by
  constructor
  · rw [ForestFireModel.model_step_grid m dr x y, if_pos hmB]
    unfold cellNext
    rw [if_neg (by omega), if_pos hmT, hmT]
  · rw [ForestFireGame.game_step_grid game dr x y, if_pos hgB]
    unfold cellNext
    rw [if_neg (by omega), if_pos hgT, hgT]

theorem claim1_witness :
    inBoundsB mDiag.grid_size 1 1 = true ∧ mDiag.grid 1 1 = 1
    ∧ inBoundsB gDiag.grid_size 1 1 = true ∧ gDiag.grid 1 1 = 1
    ∧ ((mDiag.step drawsNone).grid 1 1
        = (if drawsNone.ignite 1 1 = true then 2
           else if anyFireNeighbor vonNeumannNeighborhood mDiag.grid_size mDiag.grid 1 1 = true
           then 2 else 1)
      ∧ (gDiag.step drawsNone).grid 1 1
        = (if drawsNone.ignite 1 1 = true then 2
           else if anyFireNeighbor mooreNeighborhood gDiag.grid_size gDiag.grid 1 1 = true
           then 2 else 1)) :=
  ⟨by decide, by decide, by decide, by decide,
    claim1_tree_transition mDiag gDiag drawsNone 1 1
      (by decide) (by decide) (by decide) (by decide)⟩

/-- C2: a cell that is FIRE at the start of a tick is EMPTY in the next grid
unconditionally, in both engines, and the statistics variant increments the
cumulative burned counter by exactly one per such cell, that is, by the number
of pre-tick fire cells in total. -/
theorem claim2_fire_to_empty (m : ForestFireModel) (game : ForestFireGame)
    (dr : Draws) (x y : Int)
    (hmB : inBoundsB m.grid_size x y = true) (hmF : m.grid x y = 2)
    (hgB : inBoundsB game.grid_size x y = true) (hgF : game.grid x y = 2) :
    (m.step dr).grid x y = 0
    ∧ (game.step dr).grid x y = 0
    ∧ (game.step dr).burned
        = game.burned + ForestFireGame.countState game.grid_size game.grid 2 := by
  refine ⟨?_, ?_, ForestFireGame.step_burned game dr⟩
  · rw [ForestFireModel.model_step_grid m dr x y, if_pos hmB]
    unfold cellNext
    rw [if_neg (by omega), if_neg (by omega), if_pos hmF]
  · rw [ForestFireGame.game_step_grid game dr x y, if_pos hgB]
    unfold cellNext
    rw [if_neg (by omega), if_neg (by omega), if_pos hgF]

theorem claim2_witness :
    inBoundsB mDiag.grid_size 0 0 = true ∧ mDiag.grid 0 0 = 2
    ∧ inBoundsB gDiag.grid_size 0 0 = true ∧ gDiag.grid 0 0 = 2
    ∧ ((mDiag.step drawsNone).grid 0 0 = 0
      ∧ (gDiag.step drawsNone).grid 0 0 = 0
      ∧ (gDiag.step drawsNone).burned
          = gDiag.burned + ForestFireGame.countState gDiag.grid_size gDiag.grid 2) :=
  ⟨by decide, by decide, by decide, by decide,
    claim2_fire_to_empty mDiag gDiag drawsNone 0 0
      (by decide) (by decide) (by decide) (by decide)⟩

/-- C9 (amended): the neighborhood shape is hardcoded per engine rather than
configurable at construction: the step of ForestFireModel always follows the
transition rule with the von Neumann neighborhood, and the step of
ForestFireGame always follows it with the Moore neighborhood, whatever the
construction parameters held by the state. -/
theorem claim9_neighborhood_hardcoded (m : ForestFireModel) (game : ForestFireGame)
    (dr : Draws) (x y : Int)
    (hm : inBoundsB m.grid_size x y = true) (hg : inBoundsB game.grid_size x y = true) :
    (m.step dr).grid x y = cellNext vonNeumannNeighborhood m.grid_size m.grid dr x y
    ∧ (game.step dr).grid x y
        = cellNext mooreNeighborhood game.grid_size game.grid dr x y := by
  constructor
  · rw [ForestFireModel.model_step_grid m dr x y, if_pos hm]
  · rw [ForestFireGame.game_step_grid game dr x y, if_pos hg]

theorem claim9_witness :
    inBoundsB mDiag.grid_size 1 1 = true ∧ inBoundsB gDiag.grid_size 1 1 = true
    ∧ ((mDiag.step drawsNone).grid 1 1
        = cellNext vonNeumannNeighborhood mDiag.grid_size mDiag.grid drawsNone 1 1
      ∧ (gDiag.step drawsNone).grid 1 1
        = cellNext mooreNeighborhood gDiag.grid_size gDiag.grid drawsNone 1 1) :=
  ⟨by decide, by decide,
    claim9_neighborhood_hardcoded mDiag gDiag drawsNone 1 1 (by decide) (by decide)⟩

/-- C9 counterexample: mDiag and gDiag are built from identical construction
data - same size, same probabilities, same grid, holding a tree at (1, 1)
whose only burning neighbor (0, 0) is diagonal - yet one tick leaves the tree
alive in ForestFireModel (von Neumann excludes diagonals) and ignites it in
ForestFireGame (Moore includes them). The constructors take only grid_size,
p_tree and p_fire, so no construction argument selects the neighborhood. -/
theorem claim9_counterexample :
    mDiag.grid_size = gDiag.grid_size
    ∧ mDiag.p_tree = gDiag.p_tree
    ∧ mDiag.p_fire = gDiag.p_fire
    ∧ gridEqOn 2 mDiag.grid gDiag.grid = true
    ∧ (mDiag.step drawsNone).grid 1 1 = 1
    ∧ (gDiag.step drawsNone).grid 1 1 = 2 := by
  refine ⟨rfl, rfl, rfl, by decide, by decide, by decide⟩

/-- C10: immediately after construction every grid cell is EMPTY (both
engines), the overlay is all zero, burned and extinguished are zero, the five
histories are empty, the time-step counter is zero, the anchor is at
(size / 2, size / 2), and that anchor exceeds the clamped range bound
size - 3 exactly when size < 5. -/
theorem claim10_initial_state (n : Nat) (pt pf : Rat) (x y : Int) :
    (ForestFireModel.init n pt pf).grid x y = 0
    ∧ (ForestFireGame.init n pt pf).grid x y = 0
    ∧ (ForestFireGame.init n pt pf).extinguish_overlay x y = 0
    ∧ (ForestFireGame.init n pt pf).burned = 0
    ∧ (ForestFireGame.init n pt pf).extinguished = 0
    ∧ (ForestFireGame.init n pt pf).time_step = 0
    ∧ (ForestFireGame.init n pt pf).burned_history = []
    ∧ (ForestFireGame.init n pt pf).extinguished_history = []
    ∧ (ForestFireGame.init n pt pf).trees_history = []
    ∧ (ForestFireGame.init n pt pf).fire_percent_history = []
    ∧ (ForestFireGame.init n pt pf).tree_percent_history = []
    ∧ (ForestFireGame.init n pt pf).player_pos
        = (((n / 2 : Nat) : Int), ((n / 2 : Nat) : Int))
    ∧ ((((n / 2 : Nat) : Int) > (n : Int) - 3) ↔ n < 5) := by
  refine ⟨rfl, rfl, rfl, rfl, rfl, rfl, rfl, rfl, rfl, rfl, rfl, rfl, ?_⟩
  omega

/-- C3: both steps evaluate every cell against the same pre-tick snapshot and
write into a separate buffer, so for a fixed assignment of draws to cells the
resulting grid (and, in the statistics variant, the burned counter) is the
same for every visitation order of the cells: folding the per-cell body over
any permutation of the cell list agrees with step. -/
theorem claim3_order_independence (m : ForestFireModel) (game : ForestFireGame)
    (dr : Draws) (l1 l2 : List (Int × Int))
    (h1 : l1.Perm (cellList m.grid_size)) (h2 : l2.Perm (cellList game.grid_size)) :
    gridEqOn m.grid_size
      (l1.foldl (ForestFireModel.processCell m.grid_size m.grid dr) m.grid)
      ((m.step dr).grid) = true
    ∧ gridEqOn game.grid_size
        ((l2.foldl (ForestFireGame.processCell game.grid_size game.grid dr)
          (game.grid, game.burned)).1)
        ((game.step dr).grid) = true
    ∧ (l2.foldl (ForestFireGame.processCell game.grid_size game.grid dr)
        (game.grid, game.burned)).2 = (game.step dr).burned := by
  have h1n : l1.Nodup := h1.nodup_iff.mpr (cellList_nodup m.grid_size)
  have h2n : l2.Nodup := h2.nodup_iff.mpr (cellList_nodup game.grid_size)
  refine ⟨?_, ?_, ?_⟩
  · rw [gridEqOn, List.all_eq_true]
    intro c hc
    have hb : inBoundsB m.grid_size c.1 c.2 = true := mem_cellList.mp hc
    have hmem : c ∈ l1 := h1.mem_iff.mpr hc
    have hl := ForestFireModel.foldl_processCell m.grid_size m.grid dr l1 h1n m.grid
      (fun _ _ => rfl) c.1 c.2
    rw [show ((c.1 : Int), (c.2 : Int)) = c from rfl] at hl
    rw [hl, if_pos hmem, ForestFireModel.model_step_grid m dr c.1 c.2, if_pos hb]
    exact beq_self_eq_true _
  · rw [gridEqOn, List.all_eq_true]
    intro c hc
    have hb : inBoundsB game.grid_size c.1 c.2 = true := mem_cellList.mp hc
    have hmem : c ∈ l2 := h2.mem_iff.mpr hc
    have hl := ForestFireGame.foldl_processCell_fst game.grid_size game.grid dr l2 h2n
      (game.grid, game.burned) (fun _ _ => rfl) c.1 c.2
    rw [show ((c.1 : Int), (c.2 : Int)) = c from rfl] at hl
    rw [hl, if_pos hmem, ForestFireGame.game_step_grid game dr c.1 c.2, if_pos hb]
    exact beq_self_eq_true _
  · rw [ForestFireGame.foldl_processCell_snd game.grid_size game.grid dr l2
      (game.grid, game.burned), ForestFireGame.step_burned game dr]
    rw [h2.countP_eq (fun c => game.grid c.1 c.2 == 2)]
    rfl

theorem claim3_witness :
    ((cellList 2).reverse.Perm (cellList mDiag.grid_size))
    ∧ ((cellList 2).reverse.Perm (cellList gDiag.grid_size))
    ∧ (gridEqOn mDiag.grid_size
        ((cellList 2).reverse.foldl
          (ForestFireModel.processCell mDiag.grid_size mDiag.grid drawsNone) mDiag.grid)
        ((mDiag.step drawsNone).grid) = true
      ∧ gridEqOn gDiag.grid_size
          (((cellList 2).reverse.foldl
            (ForestFireGame.processCell gDiag.grid_size gDiag.grid drawsNone)
            (gDiag.grid, gDiag.burned)).1)
          ((gDiag.step drawsNone).grid) = true
      ∧ ((cellList 2).reverse.foldl
          (ForestFireGame.processCell gDiag.grid_size gDiag.grid drawsNone)
          (gDiag.grid, gDiag.burned)).2 = (gDiag.step drawsNone).burned) :=
  ⟨by decide, by decide,
    claim3_order_independence mDiag gDiag drawsNone
      (cellList 2).reverse (cellList 2).reverse (by decide) (by decide)⟩

/-- C4: for every intent set, the empty set included, move_player repositions
the anchor and then turns every burning cell of the new 3 x 3 footprint to
EMPTY, marks it with the fixed positive overlay decay value 2, increments the
extinguished counter once per such cell, and leaves non-burning footprint
cells (grid and overlay) unchanged. -/
theorem claim4_extinguish_footprint (game : ForestFireGame) (ds : DirSet) (i j : Int)
    (hB : inBoundsB game.grid_size i j = true)
    (hF : inFootprintB (game.move_player ds).player_pos i j = true) :
    (game.move_player ds).grid i j = (if game.grid i j = 2 then 0 else game.grid i j)
    ∧ (game.move_player ds).extinguish_overlay i j
        = (if game.grid i j = 2 then 2 else game.extinguish_overlay i j)
    ∧ (game.move_player ds).extinguished
        = game.extinguished
          + (footprintCells (game.move_player ds).player_pos.1
              (game.move_player ds).player_pos.2).countP
              (fun c => inBoundsB game.grid_size c.1 c.2 && (game.grid c.1 c.2 == 2)) := by
  have hpos : (game.move_player ds).player_pos
      = ForestFireGame.clampedPos game.grid_size game.player_pos ds :=
    ForestFireGame.move_player_pos game ds
  rw [hpos] at hF
  have hmem : ((i : Int), (j : Int)) ∈ footprintCells
      (ForestFireGame.clampedPos game.grid_size game.player_pos ds).1
      (ForestFireGame.clampedPos game.grid_size game.player_pos ds).2 :=
    mem_footprintCells.mpr hF
  refine ⟨?_, ?_, ?_⟩
  · rw [ForestFireGame.move_player_grid game ds i j]
    by_cases hfire : game.grid i j = 2
    · rw [if_pos ⟨hmem, hB, hfire⟩, if_pos hfire]
    · rw [if_neg (fun hcon => hfire hcon.2.2), if_neg hfire]
  · rw [ForestFireGame.move_player_overlay game ds i j]
    by_cases hfire : game.grid i j = 2
    · rw [if_pos ⟨hmem, hB, hfire⟩, if_pos hfire]
    · rw [if_neg (fun hcon => hfire hcon.2.2), if_neg hfire]
  · rw [hpos]
    exact ForestFireGame.move_player_extinguished game ds

theorem claim4_witness :
    inBoundsB gameScenario.grid_size 1 1 = true
    ∧ inFootprintB (gameScenario.move_player noDirs).player_pos 1 1 = true
    ∧ gameScenario.grid 1 1 = 2
    ∧ gameScenario.extinguished = 0
    ∧ ((gameScenario.move_player noDirs).grid 1 1
        = (if gameScenario.grid 1 1 = 2 then 0 else gameScenario.grid 1 1)
      ∧ (gameScenario.move_player noDirs).extinguish_overlay 1 1
          = (if gameScenario.grid 1 1 = 2 then 2 else gameScenario.extinguish_overlay 1 1)
      ∧ (gameScenario.move_player noDirs).extinguished
          = gameScenario.extinguished
            + (footprintCells (gameScenario.move_player noDirs).player_pos.1
                (gameScenario.move_player noDirs).player_pos.2).countP
                (fun c => inBoundsB gameScenario.grid_size c.1 c.2
                  && (gameScenario.grid c.1 c.2 == 2))) :=
  ⟨by decide, by decide, by decide, by decide,
    claim4_extinguish_footprint gameScenario noDirs 1 1 (by decide) (by decide)⟩

/-- C5: in any interleaving of ticks and moves, every cell that leaves the
FIRE state is counted exactly once: a tick adds each of its leaving cells to
burned and leaves extinguished untouched, while a move adds each of its
leaving cells to extinguished and leaves burned untouched; in both cases the
joint counter total grows by exactly the number of cells leaving FIRE. -/
theorem claim5_mutual_exclusivity (game : ForestFireGame) (dr : Draws) (ds : DirSet) :
    ((game.step dr).burned + (game.step dr).extinguished
       = game.burned + game.extinguished + leavingFire game (game.step dr))
    ∧ (game.step dr).extinguished = game.extinguished
    ∧ ((game.move_player ds).burned + (game.move_player ds).extinguished
       = game.burned + game.extinguished + leavingFire game (game.move_player ds))
    ∧ (game.move_player ds).burned = game.burned := by
  have htick : leavingFire game (game.step dr)
      = ForestFireGame.countState game.grid_size game.grid 2 := by
    unfold leavingFire ForestFireGame.countState
    refine List.countP_congr ?_
    intro c hc
    have hb := mem_cellList.mp hc
    have hg := ForestFireGame.game_step_grid game dr c.1 c.2
    rw [if_pos hb] at hg
    by_cases hfire : game.grid c.1 c.2 = 2
    · have hzero : (game.step dr).grid c.1 c.2 = 0 := by
        rw [hg]
        unfold cellNext
        rw [if_neg (by omega), if_neg (by omega), if_pos hfire]
      simp [hfire, hzero]
    · simp [hfire]
  have hmove : leavingFire game (game.move_player ds)
      = (footprintCells (ForestFireGame.clampedPos game.grid_size game.player_pos ds).1
          (ForestFireGame.clampedPos game.grid_size game.player_pos ds).2).countP
          (fun c => inBoundsB game.grid_size c.1 c.2 && (game.grid c.1 c.2 == 2)) := by
    unfold leavingFire
    have hcong : (cellList game.grid_size).countP
          (fun c => (game.grid c.1 c.2 == 2) && !((game.move_player ds).grid c.1 c.2 == 2))
        = (cellList game.grid_size).countP
          (fun c => (game.grid c.1 c.2 == 2)
            && decide (c ∈ footprintCells
                (ForestFireGame.clampedPos game.grid_size game.player_pos ds).1
                (ForestFireGame.clampedPos game.grid_size game.player_pos ds).2)) := by
      refine List.countP_congr ?_
      intro c hc
      have hb := mem_cellList.mp hc
      have hg := ForestFireGame.move_player_grid game ds c.1 c.2
      by_cases hfire : game.grid c.1 c.2 = 2
      · by_cases hmem : ((c.1 : Int), (c.2 : Int)) ∈ footprintCells
            (ForestFireGame.clampedPos game.grid_size game.player_pos ds).1
            (ForestFireGame.clampedPos game.grid_size game.player_pos ds).2
        · rw [if_pos ⟨hmem, hb, hfire⟩] at hg
          simp [hfire, hg, hmem]
        · rw [if_neg (fun hcon => hmem hcon.1)] at hg
          simp [hfire, hg, hmem]
      · simp [hfire]
    rw [hcong]
    refine countP_eq_countP_of_nodup (cellList_nodup game.grid_size)
      (footprintCells_nodup _ _) _ _ ?_
    intro c
    simp only [mem_cellList, Bool.and_eq_true, beq_iff_eq, decide_eq_true_eq]
    constructor
    · rintro ⟨hb, hf, hm⟩
      exact ⟨hm, hb, hf⟩
    · rintro ⟨hm, hb, hf⟩
      exact ⟨hb, hf, hm⟩
  refine ⟨?_, ForestFireGame.step_extinguished game dr, ?_,
    ForestFireGame.move_player_burned game ds⟩
  · rw [ForestFireGame.step_burned game dr, ForestFireGame.step_extinguished game dr, htick]
    omega
  · rw [ForestFireGame.move_player_burned game ds,
      ForestFireGame.move_player_extinguished game ds, hmove]
    omega

/-- C6 (amended): each intent moves its coordinate one step only under a guard
(greater than 0 for UP and LEFT, less than size - 3 for DOWN and RIGHT), and
these guards preserve membership of the anchor in [0, size - 3]: whenever the
anchor starts inside that range on both axes, any sequence of move_player
calls keeps it there, and the 3 x 3 footprint therefore stays inside
[0, size - 1] on both axes. (When size is less than 5 the initial anchor
size / 2 itself lies outside the range and moves need not restore it.) -/
theorem claim6_clamping_in_range (game : ForestFireGame) (moves : List DirSet)
    (hx : 0 ≤ game.player_pos.1 ∧ game.player_pos.1 ≤ (game.grid_size : Int) - 3)
    (hy : 0 ≤ game.player_pos.2 ∧ game.player_pos.2 ≤ (game.grid_size : Int) - 3) :
    (0 ≤ (moves.foldl ForestFireGame.move_player game).player_pos.1
      ∧ (moves.foldl ForestFireGame.move_player game).player_pos.1
          ≤ (game.grid_size : Int) - 3
      ∧ 0 ≤ (moves.foldl ForestFireGame.move_player game).player_pos.2
      ∧ (moves.foldl ForestFireGame.move_player game).player_pos.2
          ≤ (game.grid_size : Int) - 3)
    ∧ (0 ≤ (moves.foldl ForestFireGame.move_player game).player_pos.1
      ∧ (moves.foldl ForestFireGame.move_player game).player_pos.1 + 2
          ≤ (game.grid_size : Int) - 1
      ∧ 0 ≤ (moves.foldl ForestFireGame.move_player game).player_pos.2
      ∧ (moves.foldl ForestFireGame.move_player game).player_pos.2 + 2
          ≤ (game.grid_size : Int) - 1) := by
  obtain ⟨⟨ha, hb⟩, hc, hd⟩ := foldl_move_player_pos moves game hx hy
  exact ⟨⟨ha, hb, hc, hd⟩, ha, by omega, hc, by omega⟩

theorem claim6_witness :
    (0 ≤ (ForestFireGame.init 10 0 0).player_pos.1
      ∧ (ForestFireGame.init 10 0 0).player_pos.1
          ≤ (((ForestFireGame.init 10 0 0).grid_size : Nat) : Int) - 3)
    ∧ (0 ≤ (ForestFireGame.init 10 0 0).player_pos.2
      ∧ (ForestFireGame.init 10 0 0).player_pos.2
          ≤ (((ForestFireGame.init 10 0 0).grid_size : Nat) : Int) - 3)
    ∧ ((0 ≤ ([dirDown, dirDown].foldl ForestFireGame.move_player
            (ForestFireGame.init 10 0 0)).player_pos.1
      ∧ ([dirDown, dirDown].foldl ForestFireGame.move_player
            (ForestFireGame.init 10 0 0)).player_pos.1
          ≤ (((ForestFireGame.init 10 0 0).grid_size : Nat) : Int) - 3
      ∧ 0 ≤ ([dirDown, dirDown].foldl ForestFireGame.move_player
            (ForestFireGame.init 10 0 0)).player_pos.2
      ∧ ([dirDown, dirDown].foldl ForestFireGame.move_player
            (ForestFireGame.init 10 0 0)).player_pos.2
          ≤ (((ForestFireGame.init 10 0 0).grid_size : Nat) : Int) - 3)
    ∧ (0 ≤ ([dirDown, dirDown].foldl ForestFireGame.move_player
            (ForestFireGame.init 10 0 0)).player_pos.1
      ∧ ([dirDown, dirDown].foldl ForestFireGame.move_player
            (ForestFireGame.init 10 0 0)).player_pos.1 + 2
          ≤ (((ForestFireGame.init 10 0 0).grid_size : Nat) : Int) - 1
      ∧ 0 ≤ ([dirDown, dirDown].foldl ForestFireGame.move_player
            (ForestFireGame.init 10 0 0)).player_pos.2
      ∧ ([dirDown, dirDown].foldl ForestFireGame.move_player
            (ForestFireGame.init 10 0 0)).player_pos.2 + 2
          ≤ (((ForestFireGame.init 10 0 0).grid_size : Nat) : Int) - 1)) :=
  ⟨⟨by decide, by decide⟩, ⟨by decide, by decide⟩,
    claim6_clamping_in_range (ForestFireGame.init 10 0 0) [dirDown, dirDown]
      ⟨by decide, by decide⟩ ⟨by decide, by decide⟩⟩

/-- C6 counterexample: on a 4 x 4 board the constructed game starts with
anchor (2, 2), and a move with the DOWN intent leaves it at row 2, which
exceeds size - 3 = 1, so the anchor does not stay within [0, size - 3] and
the footprint bottom row 2 + 2 = 4 exceeds size - 1 = 3. -/
theorem claim6_counterexample :
    (((ForestFireGame.init 4 0 0).grid_size : Nat) : Int) - 3
        < ((ForestFireGame.init 4 0 0).move_player dirDown).player_pos.1
    ∧ (((ForestFireGame.init 4 0 0).grid_size : Nat) : Int) - 1
        < ((ForestFireGame.init 4 0 0).move_player dirDown).player_pos.1 + 2 := by
  decide

/-- C7 (amended): the overlay decay runs inside step, once per simulation
tick, not once per presentation frame: step decrements every positive overlay
counter by exactly one, keeps a counter at zero unchanged and keeps counters
non-negative, while a main-loop frame whose counter is not a multiple of 5
(and with no key held) leaves the overlay untouched. -/
theorem claim7_overlay_decay_on_tick (game : ForestFireGame) (dr : Draws)
    (x y : Int) (c : Nat)
    (hnn : 0 ≤ game.extinguish_overlay x y) (hc : ¬(c % 5 = 0)) :
    (game.step dr).extinguish_overlay x y
        = (if game.extinguish_overlay x y > 0 then game.extinguish_overlay x y - 1
           else game.extinguish_overlay x y)
    ∧ 0 ≤ (game.step dr).extinguish_overlay x y
    ∧ (mainLoopFrame dr noDirs
        { game := game, simulation_counter := c }).game.extinguish_overlay x y
        = game.extinguish_overlay x y := by
  refine ⟨ForestFireGame.step_overlay game dr x y, ?_, ?_⟩
  · rw [ForestFireGame.step_overlay game dr x y]
    split_ifs <;> omega
  · have hframe : (mainLoopFrame dr noDirs
        { game := game, simulation_counter := c }).game
        = if c % 5 = 0 then game.step dr else game := rfl
    rw [hframe, if_neg hc]

theorem claim7_witness :
    0 ≤ gameOverlay.extinguish_overlay 0 0 ∧ ¬((1 : Nat) % 5 = 0)
    ∧ ((gameOverlay.step drawsNone).extinguish_overlay 0 0
        = (if gameOverlay.extinguish_overlay 0 0 > 0
           then gameOverlay.extinguish_overlay 0 0 - 1
           else gameOverlay.extinguish_overlay 0 0)
      ∧ 0 ≤ (gameOverlay.step drawsNone).extinguish_overlay 0 0
      ∧ (mainLoopFrame drawsNone noDirs
          { game := gameOverlay, simulation_counter := 1 }).game.extinguish_overlay 0 0
          = gameOverlay.extinguish_overlay 0 0) :=
  ⟨by decide, by decide,
    claim7_overlay_decay_on_tick gameOverlay drawsNone 0 0 1 (by decide) (by decide)⟩

/-- C7 counterexample: a positive overlay counter (value 2 at cell (0, 0))
survives a presentation frame unchanged when that frame does not run a tick
(counter 1 is not a multiple of the cadence 5), so not every frame decrements
every positive overlay counter. -/
theorem claim7_counterexample :
    gameOverlay.extinguish_overlay 0 0 = 2
    ∧ ¬((1 : Nat) % 5 = 0)
    ∧ (mainLoopFrame drawsNone noDirs
        { game := gameOverlay, simulation_counter := 1 }).game.extinguish_overlay 0 0 = 2 := by
  decide

/-- C8 (amended): construction performs no parameter validation and cannot
fail: for every grid size and probability values, including sizes and
probabilities the spec calls invalid, both constructors return an object
storing the parameters unchanged; no InvalidConfiguration check exists, and
tick cadence and overlay decay duration are hardcoded constants rather than
constructor parameters. -/
theorem claim8_no_validation (n : Nat) (pt pf : Rat) :
    (ForestFireModel.init n pt pf).grid_size = n
    ∧ (ForestFireModel.init n pt pf).p_tree = pt
    ∧ (ForestFireModel.init n pt pf).p_fire = pf
    ∧ (ForestFireGame.init n pt pf).grid_size = n
    ∧ (ForestFireGame.init n pt pf).p_tree = pt
    ∧ (ForestFireGame.init n pt pf).p_fire = pf :=
  ⟨rfl, rfl, rfl, rfl, rfl, rfl⟩

/-- C8 counterexample: constructing with the non-positive grid size 0, a
probability above 1 and a probability below 0 succeeds in both classes and
stores those values; no error of any kind is raised. -/
theorem claim8_counterexample :
    (ForestFireModel.init 0 5 (-1)).grid_size = 0
    ∧ (ForestFireModel.init 0 5 (-1)).p_tree = 5
    ∧ (ForestFireModel.init 0 5 (-1)).p_fire = -1
    ∧ (ForestFireGame.init 0 5 (-1)).grid_size = 0
    ∧ (ForestFireGame.init 0 5 (-1)).p_tree = 5
    ∧ (ForestFireGame.init 0 5 (-1)).p_fire = -1 :=
  ⟨rfl, rfl, rfl, rfl, rfl, rfl⟩
